import Mathlib

/-!
Shallow embedding of the release-channel update coordinator of
SSW.YakShaver.Desktop, and proofs of the specification claims.

The embedding covers:
* `src/backend/services/updater/updater-service.ts` (UpdaterService)
* `src/backend/ipc/updater-handlers.ts` (UpdaterIPCHandlers)
* the ReleaseChannelIPCHandlers file (listReleases / checkForUpdates /
  configureAutoUpdater)
* `src/backend/services/storage/release-channel-storage.ts`

Asynchronous methods become pure functions that take the external world
(network responses, clock, delivery-engine results) as an explicit
environment value, thread the mutable instance fields as an explicit
state value, and additionally return a trace of observable external
actions (registry fetches, delivery-engine checks, download starts).
-/

deriving instance DecidableEq for Except

namespace YakShaver

/-! ### JavaScript string primitives

Helpers mirroring the JavaScript string operations used by the source:
`String.prototype.split("-")`, `startsWith`, `includes`, case-insensitive
regex test, and `Number.parseInt(s, 10)`. -/

/-- Boolean list-level matcher: the first list starts the second. -/
def chPre : List Char → List Char → Bool
  | [], _ => true
  | _ :: _, [] => false
  | a :: as, b :: bs => a == b && chPre as bs

/-- Boolean substring test on character lists. -/
def chSub (needle : List Char) : List Char → Bool
  | [] => needle.isEmpty
  | b :: bs => chPre needle (b :: bs) || chSub needle bs

/-- JavaScript `hay.includes(needle)`. -/
def strContains (hay needle : String) : Bool := chSub needle.toList hay.toList

/-- JavaScript `s.startsWith(p)`. -/
def strStarts (s p : String) : Bool := chPre p.toList s.toList

/-- Case-insensitive substring test, mirroring the regex test with the i flag. -/
def strContainsCI (hay needle : String) : Bool :=
  chSub (needle.toList.map Char.toLower) (hay.toList.map Char.toLower)

/-- JavaScript `s.split("-")` at character-list level. -/
def splitDash : List Char → List (List Char)
  | [] => [[]]
  | c :: rest =>
    let r := splitDash rest
    if c = '-' then [] :: r
    else
      match r with
      | [] => [[c]]
      | s :: ss => (c :: s) :: ss

/-- Decimal value of a digit list. -/
def digitsVal (cs : List Char) : Nat :=
  cs.foldl (fun a c => a * 10 + (c.toNat - 48)) 0

/-- Parses a maximal leading digit run; none when there is no leading digit
(the NaN case of parseInt). -/
def parseDigits (cs : List Char) : Option Nat :=
  let ds := cs.takeWhile Char.isDigit
  if ds.isEmpty then none else some (digitsVal ds)

/-- Whitespace skipped by JavaScript parseInt. -/
def isJsSpace (c : Char) : Bool :=
  c == ' ' || c == '\t' || c == '\n' || c == '\r'

/-- JavaScript `Number.parseInt(s, 10)`: skip whitespace, optional sign,
then a maximal leading run of decimal digits; `none` models NaN. -/
def parseIntJS (s : String) : Option Int :=
  let t := s.toList.dropWhile isJsSpace
  match t with
  | '+' :: rest => (parseDigits rest).map (fun n => (n : Int))
  | '-' :: rest => (parseDigits rest).map (fun n => -(n : Int))
  | _ => (parseDigits t).map (fun n => (n : Int))

/-- JavaScript `o || d` on an optional string: the empty string is falsy. -/
def jsOr (o : Option String) (d : String) : String :=
  match o with
  | some s => if s = "" then d else s
  | none => d

/-! ### UpdaterService: data model

From `updater-service.ts`: the registry release record (the fields the
service reads), the BranchInfo projection, the update-check record, the
cache slot and the service instance state. -/

/-- One registry release record, restricted to the fields the service reads. -/
structure Release where
  tag_name : String
  name : Option String
  prerelease : Bool
  target_commitish : String
  published_at : Option String
  body : Option String
deriving Repr, DecidableEq

inductive BranchKind
  | release
  | branch
  | pr
deriving Repr, DecidableEq

/-- The BranchInfo interface of updater-service.ts (field `type` is named
`kind` here because of the Lean keyword-adjacent name). -/
structure BranchInfo where
  name : String
  displayName : String
  sha : String
  kind : BranchKind
  prNumber : Option Int
  releaseTag : Option String
deriving Repr, DecidableEq

structure UpdateInfo where
  version : String
  releaseDate : String
  releaseName : String
  releaseNotes : String
deriving Repr, DecidableEq

/-- An error thrown by a registry call: HTTP status and message, the two
attributes the catch block of getAvailableBranches inspects. -/
structure ApiError where
  status : Nat
  message : String
deriving Repr, DecidableEq

/-- Rate-limit introspection payload (octokit rateLimit.get). -/
structure RateInfo where
  limit : Nat
  remaining : Nat
  reset : Nat
deriving Repr, DecidableEq

/-- Information content of the Error values thrown by UpdaterService. -/
inductive UpdErr
  | rateLimitedNoInfo
  | fetchFailed (msg : String)
  | channelNotFound (channel : String)
  | engineCheckFailed (msg : String)
  | checkWrap (e : UpdErr)
  | noUpdateAvailable
  | deliveryError (msg : String)
deriving Repr, DecidableEq

/-- Observable external actions of the service, in order of occurrence. -/
inductive Ev
  | fetchLatest
  | fetchList
  | fetchByTag (tag : String)
  | rateLimitQuery
  | engineCheck
  | downloadStart
deriving Repr, DecidableEq

/-- The branchesCache slot of UpdaterService. -/
structure Cache where
  data : List BranchInfo
  timestamp : Nat
deriving Repr, DecidableEq

/-- The lastUpdateCheck record of UpdaterService. -/
structure LastCheck where
  channel : String
  updateInfo : Option UpdateInfo
deriving Repr, DecidableEq

/-- Mutable instance fields of UpdaterService. -/
structure UState where
  currentChannel : String
  branchesCache : Option Cache
  lastUpdateCheck : Option LastCheck
deriving Repr, DecidableEq

/-- External world for one UpdaterService operation: the clock and the
outcomes of the network and delivery-engine calls the operation makes. -/
structure Env where
  now : Nat
  nowISO : String
  appVersion : String
  latestRelease : Except ApiError Release
  releasesList : Except ApiError (List Release)
  releaseByTag : String → Except String Release
  engineCheck : Except String (Option UpdateInfo)
  rateLimit : Except String RateInfo
  downloadResult : Except String Unit

def CACHE_DURATION_MS : Nat := 5 * 60 * 1000

/-! ### UpdaterService: getAvailableBranches -/

/-- Lines 97-103 of updater-service.ts: the entry pushed for the latest
stable release. -/
def mkLatestBranchInfo (lr : Release) : BranchInfo :=
  { name := lr.tag_name
    displayName := "Latest Release (" ++ lr.tag_name ++ ")"
    sha := lr.target_commitish
    kind := .release
    prNumber := none
    releaseTag := some lr.tag_name }

/-- Second dash-separated segment of a tag, i.e. `tag.split("-")[1]`. -/
def seg1 (tag : String) : Option (List Char) :=
  match (splitDash tag.toList).drop 1 with
  | [] => none
  | s :: _ => some s

/-- `Number.parseInt(tag.split("-")[1], 10)`; `none` models NaN (also for a
missing segment, since parseInt of undefined is NaN). -/
def prNumberOf (tag : String) : Option Int :=
  match seg1 tag with
  | none => none
  | some s => parseIntJS (String.mk s)

/-- JavaScript `tag.replace("branch-", "")` under the guard that the tag
starts with the seven-character literal, so the first occurrence is the
leading one: drop the first seven characters. -/
def dropBranchPre (tag : String) : String := String.mk (tag.toList.drop 7)

/-- Loop body of lines 121-144 of updater-service.ts: how one listed
release is classified into a BranchInfo, or skipped. -/
def classifyPrerelease (r : Release) : Option BranchInfo :=
  if r.prerelease && strStarts r.tag_name "pr-" then
    match prNumberOf r.tag_name with
    | some n =>
        some { name := r.tag_name
               displayName := "PR #" ++ toString n ++ ": " ++ jsOr r.name "Untitled"
               sha := r.target_commitish
               kind := .pr
               prNumber := some n
               releaseTag := some r.tag_name }
    | none => none
  else if r.prerelease && strStarts r.tag_name "branch-" then
    some { name := r.tag_name
           displayName := "Branch: " ++ dropBranchPre r.tag_name
           sha := r.target_commitish
           kind := .branch
           prNumber := none
           releaseTag := some r.tag_name }
  else none

/-- Rate-limit classification of the catch block (status 403 and a message
containing the phrase). -/
def rlClassified (e : ApiError) : Bool :=
  e.status == 403 && strContains e.message "rate limit"

/-- Catch block of getAvailableBranches (lines 154-192). On a
rate-limit-classified error the quota query is attempted, but the
informative error built after a successful query (lines 165-170) is
thrown inside the inner try and caught by its own catch (line 171), so
regardless of the quota query outcome the inner catch runs: return the
cached data when a cache entry exists, otherwise throw the plain
rate-limit message that carries no quota details. -/
def catchBranches (_env : Env) (st : UState) (e : ApiError) (evs : List Ev) :
    Except UpdErr (List BranchInfo) × UState × List Ev :=
  if rlClassified e then
    match st.branchesCache with
    | some c => (.ok c.data, st, evs ++ [Ev.rateLimitQuery])
    | none => (.error .rateLimitedNoInfo, st, evs ++ [Ev.rateLimitQuery])
  else
    match st.branchesCache with
    | some c => (.ok c.data, st, evs)
    | none => (.error (.fetchFailed e.message), st, evs)

/-- Lines 91-111 of updater-service.ts: the optional latest-release
discovery, whose failure is swallowed; on success the entry is pushed and
the current channel may be promoted from the latest marker to its tag. -/
def discoverLatest (env : Env) (st : UState) : List BranchInfo × UState :=
  match env.latestRelease with
  | .ok lr =>
      ([mkLatestBranchInfo lr],
       if st.currentChannel = "latest" ∧ lr.tag_name ≠ "" then
         { st with currentChannel := lr.tag_name }
       else st)
  | .error _ => ([], st)

/-- Cache-miss path of getAvailableBranches (lines 87-192): fetch the
latest release (failure swallowed), list all releases, classify, cache. -/
def fetchBranches (env : Env) (st : UState) :
    Except UpdErr (List BranchInfo) × UState × List Ev :=
  match env.releasesList with
  | .ok rels =>
      let branches := (discoverLatest env st).1 ++ rels.filterMap classifyPrerelease
      (.ok branches,
       { (discoverLatest env st).2 with branchesCache := some ⟨branches, env.now⟩ },
       [Ev.fetchLatest, Ev.fetchList])
  | .error e => catchBranches env (discoverLatest env st).2 e [Ev.fetchLatest, Ev.fetchList]

/-- getAvailableBranches (lines 76-193): serve a fresh cache entry, or
fetch. -/
def getAvailableBranches (env : Env) (st : UState) (forceRefresh : Bool) :
    Except UpdErr (List BranchInfo) × UState × List Ev :=
  match st.branchesCache with
  | some c =>
      if !forceRefresh && decide (env.now - c.timestamp < CACHE_DURATION_MS) then
        (.ok c.data, st, [])
      else fetchBranches env st
  | none => fetchBranches env st

/-! ### UpdaterService: checkForUpdates, downloadUpdate, switchChannel -/

/-- Fallback UpdateInfo built from the release record (lines 238-243). -/
def fallbackInfo (env : Env) (release : Release) : UpdateInfo :=
  { version := release.tag_name
    releaseDate := jsOr release.published_at env.nowISO
    releaseName := jsOr release.name release.tag_name
    releaseNotes := jsOr release.body "" }

/-- JavaScript truthiness of an optional string field. -/
def truthyTag : Option String → Option String
  | some t => if t = "" then none else some t
  | none => none

/-- Non-latest branch of checkForUpdates (lines 203-265), including the
outer catch that clears lastUpdateCheck on every thrown error. -/
def checkNonLatest (env : Env) (st : UState) (channel : String) :
    Except UpdErr (Option UpdateInfo) × UState × List Ev :=
  match getAvailableBranches env st false with
  | (.error e, st1, evs) => (.error e, { st1 with lastUpdateCheck := none }, evs)
  | (.ok branches, st1, evs) =>
      match branches.find? (fun b => b.name == channel) with
      | none =>
          (.error (.channelNotFound channel), { st1 with lastUpdateCheck := none }, evs)
      | some tb =>
          match truthyTag tb.releaseTag with
          | none =>
              (.error (.channelNotFound channel), { st1 with lastUpdateCheck := none }, evs)
          | some rt =>
              match env.releaseByTag rt with
              | .error m =>
                  (.error (.fetchFailed m), { st1 with lastUpdateCheck := none },
                   evs ++ [Ev.fetchByTag rt])
              | .ok release =>
                  if release.tag_name ≠ "v" ++ env.appVersion ∧
                     release.tag_name ≠ env.appVersion then
                    let ui :=
                      match env.engineCheck with
                      | .ok (some u) => u
                      | .ok none => fallbackInfo env release
                      | .error _ => fallbackInfo env release
                    (.ok (some ui),
                     { st1 with lastUpdateCheck := some ⟨channel, some ui⟩ },
                     evs ++ [Ev.fetchByTag rt, Ev.engineCheck])
                  else
                    (.ok none,
                     { st1 with lastUpdateCheck := some ⟨channel, none⟩ },
                     evs ++ [Ev.fetchByTag rt])

/-- checkForUpdates (lines 198-285). Sets currentChannel first; on any
thrown error lastUpdateCheck is cleared and the error rethrown. -/
def checkForUpdates (env : Env) (st : UState) (channel : String) :
    Except UpdErr (Option UpdateInfo) × UState × List Ev :=
  if channel ≠ "latest" then
    checkNonLatest env { st with currentChannel := channel } channel
  else
    match env.engineCheck with
    | .error m =>
        (.error (.engineCheckFailed m),
         { st with currentChannel := channel, lastUpdateCheck := none },
         [Ev.engineCheck])
    | .ok r =>
        (.ok r,
         { st with currentChannel := channel, lastUpdateCheck := some ⟨channel, r⟩ },
         [Ev.engineCheck])

/-- Guard of lines 294: no recorded check, or a check for another channel. -/
def needsRecheck (st : UState) : Bool :=
  match st.lastUpdateCheck with
  | none => true
  | some lc => lc.channel != st.currentChannel

/-- The download promise (lines 322-343): the delivery engine starts a
download which resolves or rejects. -/
def doDownload (env : Env) (st : UState) (evs : List Ev) :
    Except UpdErr Unit × UState × List Ev :=
  match env.downloadResult with
  | .ok _ => (.ok (), st, evs ++ [Ev.downloadStart])
  | .error m => (.error (.deliveryError m), st, evs ++ [Ev.downloadStart])

/-- Feed-configuration step of downloadUpdate (lines 308-320). -/
def downloadPhase3 (env : Env) (st : UState) (evs : List Ev) :
    Except UpdErr Unit × UState × List Ev :=
  if st.currentChannel ≠ "latest" then
    match getAvailableBranches env st false with
    | (.error e, st1, evs1) => (.error e, st1, evs ++ evs1)
    | (.ok _branches, st1, evs1) => doDownload env st1 (evs ++ evs1)
  else doDownload env st evs

/-- Availability gate of downloadUpdate (lines 303-306). -/
def downloadPhase2 (env : Env) (st : UState) (evs : List Ev) :
    Except UpdErr Unit × UState × List Ev :=
  match st.lastUpdateCheck with
  | none => (.error .noUpdateAvailable, st, evs)
  | some lc =>
      match lc.updateInfo with
      | none => (.error .noUpdateAvailable, st, evs)
      | some _ => downloadPhase3 env st evs

/-- downloadUpdate (lines 291-344): re-check when the recorded check is
missing or for another channel, then gate on updateInfo, then download. -/
def downloadUpdate (env : Env) (st : UState) :
    Except UpdErr Unit × UState × List Ev :=
  if needsRecheck st then
    match checkForUpdates env st st.currentChannel with
    | (.error e, st1, evs) => (.error (.checkWrap e), st1, evs)
    | (.ok _, st1, evs) => downloadPhase2 env st1 evs
  else downloadPhase2 env st []

/-- switchChannel (lines 356-372): set the in-memory channel, run the
check, answer whether an update is available. -/
def switchChannel (env : Env) (st : UState) (channel : String) :
    Except UpdErr Bool × UState × List Ev :=
  match checkForUpdates env { st with currentChannel := channel } channel with
  | (.error e, st1, evs) => (.error e, st1, evs)
  | (.ok ui, st1, evs) => (.ok ui.isSome, st1, evs)

/-- Run a sequence of getAvailableBranches calls with forceRefresh false,
each with its own environment (clock and responses). -/
def runGets (envs : List Env) (st : UState) :
    List (Except UpdErr (List BranchInfo)) × UState × List Ev :=
  match envs with
  | [] => ([], st, [])
  | e :: es =>
      match getAvailableBranches e st false with
      | (r, st1, evs1) =>
          match runGets es st1 with
          | (rs, st2, evs2) => (r :: rs, st2, evs1 ++ evs2)

/-- Number of registry listing calls recorded in a trace: each cache
refresh performs exactly one listing call. -/
def countFetches (evs : List Ev) : Nat := evs.count Ev.fetchList

/-! ### ReleaseChannelIPCHandlers: data model

From the ReleaseChannelIPCHandlers file: the GitHubRelease record, the
single-slot releases cache with validation token, the persisted channel
selector, and the delivery-engine configuration that the handlers mutate
before invoking a check. -/

structure GhRelease where
  id : Nat
  tag_name : String
  name : String
  prerelease : Bool
  published_at : String
  html_url : String
deriving Repr, DecidableEq

structure RCache where
  releases : List GhRelease
  fetchedAt : Nat
  etag : Option String
deriving Repr, DecidableEq

structure GhResponse where
  releases : List GhRelease
  error : Option String
deriving Repr, DecidableEq

/-- Outcome of the fetch call: a thrown network error, or a response with
status, status text, parsed JSON body, raw body text and etag header. -/
inductive FetchOutcome
  | netError (msg : String)
  | resp (status : Nat) (statusText : String) (body : List GhRelease)
      (bodyText : String) (etag : Option String)
deriving Repr, DecidableEq

inductive ChannelType
  | latest
  | tag
deriving Repr, DecidableEq

/-- The persisted ReleaseChannel record of release-channel-storage.ts. -/
structure ReleaseChannel where
  type : ChannelType
  tag : Option String
deriving Repr, DecidableEq

/-- Feed targets the handlers configure on the delivery engine. -/
inductive Feed
  | unset
  | github (owner repo : String) (priv : Bool)
  | generic (url : String) (chan : String)
deriving Repr, DecidableEq

/-- Mutable delivery-engine configuration (the autoUpdater fields the
handlers assign). -/
structure Engine where
  channelName : Option String
  allowPrerelease : Bool
  allowDowngrade : Bool
  authHeader : Bool
  feed : Feed
deriving Repr, DecidableEq

/-- Mutable state of the handlers instance plus the shared engine. -/
structure HState where
  releasesCache : Option RCache
  engine : Engine
deriving Repr, DecidableEq

/-- External world for one handler operation. -/
structure HEnv where
  isPackaged : Bool
  channel : ReleaseChannel
  currentVersion : String
  listResponse : FetchOutcome
  now : Nat
  engineCheckResult : Except String (Option UpdateInfo)
  token : Option String

def REPO_OWNER : String := "SSWConsulting"
def REPO_NAME : String := "SSW.YakShaver.Desktop"
def RELEASES_CACHE_TTL : Nat := 5 * 60 * 1000

/-! ### ReleaseChannelIPCHandlers: listReleases -/

def rateLimitMsg : String :=
  "GitHub API rate limit exceeded. Please configure a GitHub token in Settings | GitHub Token"

/-- Response handling after the 304 short-circuit: non-ok statuses become
an in-band error (rate-limit message for a matching 403 body), ok bodies
replace the cache slot wholesale. -/
def hHandleResp (env : HEnv) (hs : HState) (status : Nat) (statusText : String)
    (body : List GhRelease) (bodyText : String) (etag : Option String) :
    GhResponse × HState :=
  if ¬(200 ≤ status ∧ status ≤ 299) then
    ({ releases := []
       error := some (if status = 403 ∧ strContainsCI bodyText "rate limit"
         then rateLimitMsg
         else "Failed to fetch releases: " ++ statusText) }, hs)
  else
    ({ releases := body, error := none },
     { hs with releasesCache := some ⟨body, env.now, etag⟩ })

/-- Network phase of listReleases: thrown errors are caught into an
in-band error; a 304 with an existing cache entry refreshes only its
recency. -/
def hFetchReleases (env : HEnv) (hs : HState) : GhResponse × HState :=
  match env.listResponse with
  | .netError m => ({ releases := [], error := some m }, hs)
  | .resp status statusText body bodyText etag =>
      match hs.releasesCache with
      | some c =>
          if status = 304 then
            ({ releases := c.releases, error := none },
             { hs with releasesCache := some { c with fetchedAt := env.now } })
          else hHandleResp env hs status statusText body bodyText etag
      | none => hHandleResp env hs status statusText body bodyText etag

/-- listReleases (the handlers file, lines 121-186). -/
def hListReleases (env : HEnv) (hs : HState) (forceRefresh : Bool) :
    GhResponse × HState :=
  match hs.releasesCache with
  | some c =>
      if !forceRefresh && decide (env.now - c.fetchedAt < RELEASES_CACHE_TTL) then
        ({ releases := c.releases, error := none }, hs)
      else hFetchReleases env hs
  | none => hFetchReleases env hs

/-! ### ReleaseChannelIPCHandlers: checkForUpdates and engine configuration -/

/-- First regex match of beta dot digits dot inside the tag. -/
def tryBetaAt : List Char → Option (List Char)
  | 'b' :: 'e' :: 't' :: 'a' :: '.' :: rest =>
      let ds := rest.takeWhile Char.isDigit
      if ds.isEmpty then none
      else
        match rest.drop ds.length with
        | '.' :: _ => some ds
        | _ => none
  | _ => none

def betaScan : List Char → Option (List Char)
  | [] => none
  | c :: cs =>
      match tryBetaAt (c :: cs) with
      | some ds => some ds
      | none => betaScan cs

/-- extractChannelFromTag (lines 295-298): the beta channel name derived
from a timestamped beta tag. -/
def extractChannelFromTag (tag : String) : String :=
  match betaScan tag.toList with
  | some ds => "beta." ++ String.mk ds
  | none => "beta"

/-- configureAutoUpdater (lines 300-332). -/
def configureAutoUpdater (env : HEnv) (eng : Engine) (channel : ReleaseChannel) :
    Engine :=
  if !env.isPackaged then eng
  else
    let eng1 := if env.token.isSome then { eng with authHeader := true } else eng
    let eng2 :=
      match channel.type with
      | .latest =>
          { eng1 with channelName := some "latest", allowPrerelease := false,
                      allowDowngrade := false }
      | .tag =>
          match truthyTag channel.tag with
          | some t =>
              { eng1 with channelName := some (extractChannelFromTag t),
                          allowPrerelease := true, allowDowngrade := true }
          | none => eng1
    { eng2 with feed := .github REPO_OWNER REPO_NAME false }

/-- Result record of the update check handler. -/
structure CheckOut where
  available : Bool
  version : Option String
  error : Option String
deriving Repr, DecidableEq

def downloadUrlFor (tag : String) : String :=
  "https://github.com/" ++ REPO_OWNER ++ "/" ++ REPO_NAME ++
    "/releases/download/" ++ tag

def noManifestMsg : String :=
  "No update found. Ensure the PR release includes the correct beta.\x7bPR\x7d.yml manifest."

def notPackagedMsg : String :=
  "Update checks are only available in packaged applications"

/-- checkForUpdates (the handlers file, lines 188-284). The third
component of the result is the trace of delivery-engine check
invocations, each recording the engine configuration in force at the
moment of the invocation. -/
def hCheckForUpdates (env : HEnv) (hs : HState) :
    CheckOut × HState × List Engine :=
  if !env.isPackaged then
    ({ available := false, version := none, error := some notPackagedMsg }, hs, [])
  else
    match env.channel.type, truthyTag env.channel.tag with
    | .tag, some t =>
        match hListReleases env hs true with
        | (resp, hs1) =>
            match resp.error with
            | some e =>
                ({ available := false, version := none, error := some e }, hs1, [])
            | none =>
                match resp.releases.find? (fun r => r.tag_name == t) with
                | none =>
                    ({ available := false, version := none,
                       error := some ("Release " ++ t ++ " not found") }, hs1, [])
                | some tr =>
                    if env.currentVersion = tr.tag_name then
                      ({ available := false, version := some env.currentVersion,
                         error := none }, hs1, [])
                    else
                      let eng1 := { hs1.engine with
                                    feed := .generic (downloadUrlFor t)
                                      (extractChannelFromTag t),
                                    allowPrerelease := true,
                                    allowDowngrade := true }
                      let hs2 := { hs1 with engine := eng1 }
                      match env.engineCheckResult with
                      | .ok (some _u) =>
                          ({ available := true, version := some tr.tag_name,
                             error := none }, hs2, [eng1])
                      | .ok none =>
                          ({ available := false, version := none,
                             error := some noManifestMsg }, hs2, [eng1])
                      | .error m =>
                          ({ available := false, version := none,
                             error := some m }, hs2, [eng1])
    | _, _ =>
        let eng1 := configureAutoUpdater env hs.engine env.channel
        let eng2 := { eng1 with allowDowngrade := false }
        let hs1 := { hs with engine := eng2 }
        match env.engineCheckResult with
        | .error m =>
            ({ available := false, version := none, error := some m }, hs1, [eng2])
        | .ok (some u) =>
            ({ available := decide (u.version ≠ env.currentVersion),
               version := some u.version, error := none }, hs1, [eng2])
        | .ok none =>
            ({ available := false, version := none, error := none }, hs1, [eng2])

/-! ### Channel Store (release-channel-storage.ts)

The storage class delegates encryption to BaseSecureStorage, whose file is
not under src/; the cipher below is modelled from the spec. -/

/-- Modelled from the spec: the missing BaseSecureStorage.encryptAndStore
writes a durable, encrypted-at-rest record; modelled as an invertible
byte-level cipher applied to a serialization of the record. -/
def encryptBytes (bs : List Nat) : List Nat := bs.map (fun b => b + 7)

/-- Modelled from the spec: inverse of the cipher of
BaseSecureStorage.decryptAndLoad. -/
def decryptBytes (bs : List Nat) : List Nat := bs.map (fun b => b - 7)

def strBytes (s : String) : List Nat := s.toList.map Char.toNat

def strOfBytes (bs : List Nat) : String := String.mk (bs.map Char.ofNat)

/-- Serialization of the ReleaseChannel record to bytes: a tag byte for
the type and presence of the tag field, then the tag characters. -/
def encodeChannel (c : ReleaseChannel) : List Nat :=
  match c.type, c.tag with
  | .latest, none => [0]
  | .latest, some t => 1 :: strBytes t
  | .tag, none => [2]
  | .tag, some t => 3 :: strBytes t

def decodeChannel : List Nat → Option ReleaseChannel
  | [0] => some ⟨.latest, none⟩
  | 1 :: rest => some ⟨.latest, some (strOfBytes rest)⟩
  | [2] => some ⟨.tag, none⟩
  | 3 :: rest => some ⟨.tag, some (strOfBytes rest)⟩
  | _ => none

/-- State of the ReleaseChannelStorage singleton: the in-process cache and
the encrypted settings file (none when the file does not exist). -/
structure StoreState where
  cache : Option ReleaseChannel
  file : Option (List Nat)
deriving Repr, DecidableEq

def DEFAULT_CHANNEL : ReleaseChannel := ⟨.latest, none⟩

/-- Modelled from the spec: decryptAndLoad of the missing
BaseSecureStorage returns the decoded record, or none when the file is
missing or does not decode. -/
def decryptAndLoad (file : Option (List Nat)) : Option ReleaseChannel :=
  match file with
  | none => none
  | some bs => decodeChannel (decryptBytes bs)

/-- loadSettings (lines 36-45): serve the cache, otherwise decrypt and
default. -/
def loadSettings (st : StoreState) : ReleaseChannel × StoreState :=
  match st.cache with
  | some c => (c, st)
  | none =>
      let d := (decryptAndLoad st.file).getD DEFAULT_CHANNEL
      (d, { st with cache := some d })

/-- saveSettings (lines 47-50): the cache is assigned first, then the
encrypted record is persisted; persistOk models whether the store step of
the missing BaseSecureStorage succeeds. -/
def saveSettings (c : ReleaseChannel) (persistOk : Bool) (st : StoreState) :
    Except String Unit × StoreState :=
  let st1 := { st with cache := some c }
  if persistOk then
    (.ok (), { st1 with file := some (encryptBytes (encodeChannel c)) })
  else (.error "persist failed", st1)

def getChannel (st : StoreState) : ReleaseChannel × StoreState := loadSettings st

def setChannel (c : ReleaseChannel) (persistOk : Bool) (st : StoreState) :
    Except String Unit × StoreState := saveSettings c persistOk st

/-- Process restart: the in-process cache is lost, the durable file
survives. -/
def restart (st : StoreState) : StoreState := { cache := none, file := st.file }

/-- Well-formed channel value: tag present and non-empty when the type is
tag, absent when latest. -/
def wfChannel (c : ReleaseChannel) : Bool :=
  match c.type, c.tag with
  | .tag, some t => t ≠ ""
  | .tag, none => false
  | .latest, none => true
  | .latest, some _ => false

/-- The IPC switch-channel handler (updater-handlers.ts lines 96-110)
calls only UpdaterService.switchChannel; the Channel Store singleton is
not touched, which the explicit store component makes visible. -/
def switchChannelIPC (env : Env) (u : UState) (s : StoreState) (channel : String) :
    Except UpdErr Bool × UState × StoreState × List Ev :=
  match switchChannel env u channel with
  | (r, u1, evs) => (r, u1, s, evs)

/-- getCurrentChannel (updater-service.ts lines 384-386). -/
def getCurrentChannel (st : UState) : String := st.currentChannel

/-- Optional chaining of lines 304: the updateInfo of the recorded check,
none when no check is recorded. -/
def recordedInfo (st : UState) : Option UpdateInfo :=
  match st.lastUpdateCheck with
  | none => none
  | some lc => lc.updateInfo

/-! ### Helper lemmas: traces and state preservation -/

theorem catchBranches_state (env : Env) (st : UState) (e : ApiError) (evs : List Ev) :
    (catchBranches env st e evs).2.1 = st := by
  unfold catchBranches
  split
  · cases st.branchesCache <;> rfl
  · cases st.branchesCache <;> rfl

theorem catchBranches_trace (env : Env) (st : UState) (e : ApiError) (evs : List Ev) :
    (catchBranches env st e evs).2.2 = evs ∨
    (catchBranches env st e evs).2.2 = evs ++ [Ev.rateLimitQuery] := by
  unfold catchBranches
  split
  · cases st.branchesCache <;> right <;> rfl
  · cases st.branchesCache <;> left <;> rfl

theorem downloadStart_not_gab (env : Env) (st : UState) (f : Bool) :
    Ev.downloadStart ∉ (getAvailableBranches env st f).2.2 := by
  have hfetch : Ev.downloadStart ∉ (fetchBranches env st).2.2 := by
    unfold fetchBranches
    cases env.releasesList with
    | ok rels => simp
    | error e =>
        simp only
        rcases catchBranches_trace env _ e [Ev.fetchLatest, Ev.fetchList] with h | h <;>
          rw [h] <;> simp
  unfold getAvailableBranches
  cases st.branchesCache with
  | none => exact hfetch
  | some c =>
      simp only
      split
      · simp
      · exact hfetch

theorem downloadStart_not_check (env : Env) (st : UState) (channel : String) :
    Ev.downloadStart ∉ (checkForUpdates env st channel).2.2 := by
  unfold checkForUpdates
  split
  · unfold checkNonLatest
    have hgab := downloadStart_not_gab env { st with currentChannel := channel } false
    rcases hg : getAvailableBranches env { st with currentChannel := channel } false with
      ⟨r, st1, evs⟩
    rw [hg] at hgab
    simp only at hgab
    cases r with
    | error e => simpa using hgab
    | ok branches =>
        simp only
        cases branches.find? (fun b => b.name == channel) with
        | none => simpa using hgab
        | some tb =>
            simp only
            cases truthyTag tb.releaseTag with
            | none => simpa using hgab
            | some rt =>
                simp only
                cases env.releaseByTag rt with
                | error m => simp_all
                | ok release =>
                    simp only
                    split <;> simp_all
  · cases env.engineCheck <;> simp

theorem discoverLatest_channel (env : Env) (st : UState)
    (h : st.currentChannel ≠ "latest") :
    (discoverLatest env st).2.currentChannel = st.currentChannel := by
  unfold discoverLatest
  cases env.latestRelease with
  | ok lr =>
      simp only
      split
      · next hcond => exact absurd hcond.1 h
      · rfl
  | error e => rfl

/-- Fetching never changes the current channel away from what it is,
unless the channel is the literal latest marker. -/
theorem gab_currentChannel (env : Env) (st : UState) (f : Bool)
    (h : st.currentChannel ≠ "latest") :
    (getAvailableBranches env st f).2.1.currentChannel = st.currentChannel := by
  have hfetch : (fetchBranches env st).2.1.currentChannel = st.currentChannel := by
    unfold fetchBranches
    cases env.releasesList with
    | ok rels => simpa using discoverLatest_channel env st h
    | error e =>
        simp only
        rw [catchBranches_state]
        exact discoverLatest_channel env st h
  unfold getAvailableBranches
  cases st.branchesCache with
  | none => exact hfetch
  | some c =>
      simp only
      split
      · rfl
      · exact hfetch

/-! ### Claim theorems -/

/-- C10: when checkForUpdates(c) fails, the state is not rolled back: the
current channel stays c (getCurrentChannel returns c), the recorded last
update check is cleared to null, and therefore the recheck guard of
downloadUpdate fires on the next call instead of reusing an earlier
check. -/
theorem checkForUpdates_failure_state (env : Env) (st : UState) (channel : String)
    (e : UpdErr) (st1 : UState) (evs : List Ev)
    (h : checkForUpdates env st channel = (.error e, st1, evs)) :
    getCurrentChannel st1 = channel ∧ st1.lastUpdateCheck = none ∧
      needsRecheck st1 = true := by
  have hcc : ∀ st2 : UState, st2.lastUpdateCheck = none → needsRecheck st2 = true := by
    intro st2 h2
    unfold needsRecheck
    rw [h2]
  unfold checkForUpdates at h
  split at h
  · next hch =>
      unfold checkNonLatest at h
      have hgc := gab_currentChannel env { st with currentChannel := channel } false
        (by simpa using hch)
      rcases hg : getAvailableBranches env { st with currentChannel := channel } false with
        ⟨r, stg, evsg⟩
      rw [hg] at h hgc
      simp only at hgc
      cases r with
      | error e2 =>
          simp only at h
          injection h with h1 h2
          injection h2 with h2 h3
          subst h2
          exact ⟨hgc, rfl, hcc _ rfl⟩
      | ok branches =>
          simp only at h
          split at h
          · injection h with h1 h2
            injection h2 with h2 h3
            subst h2
            exact ⟨hgc, rfl, hcc _ rfl⟩
          · split at h
            · injection h with h1 h2
              injection h2 with h2 h3
              subst h2
              exact ⟨hgc, rfl, hcc _ rfl⟩
            · split at h
              · injection h with h1 h2
                injection h2 with h2 h3
                subst h2
                exact ⟨hgc, rfl, hcc _ rfl⟩
              · split at h <;> simp at h
  · cases hec : env.engineCheck with
    | error m =>
        rw [hec] at h
        simp only at h
        injection h with h1 h2
        injection h2 with h2 h3
        subst h2
        exact ⟨rfl, rfl, hcc _ rfl⟩
    | ok r =>
        rw [hec] at h
        exact absurd h (by simp)

/-- C1: with no recorded check for the current channel, downloadUpdate
first re-runs checkForUpdates for the current channel; if the re-check
succeeds but records no updateInfo, downloadUpdate fails with the
no-update-available error and starts no download; if the re-check throws,
downloadUpdate fails with the wrapped check error and starts no
download. -/
theorem downloadUpdate_requires_current_check (env : Env) (st : UState)
    (h : needsRecheck st = true) :
    (∀ v st1 evs, checkForUpdates env st st.currentChannel = (.ok v, st1, evs) →
        recordedInfo st1 = none →
        downloadUpdate env st = (.error .noUpdateAvailable, st1, evs) ∧
          Ev.downloadStart ∉ evs) ∧
    (∀ e st1 evs, checkForUpdates env st st.currentChannel = (.error e, st1, evs) →
        downloadUpdate env st = (.error (.checkWrap e), st1, evs) ∧
          Ev.downloadStart ∉ evs) := by
  constructor
  · intro v st1 evs hchk hinfo
    have hnd := downloadStart_not_check env st st.currentChannel
    rw [hchk] at hnd
    refine ⟨?_, hnd⟩
    unfold downloadUpdate
    rw [h]
    simp only [if_true, hchk]
    unfold downloadPhase2
    unfold recordedInfo at hinfo
    cases hl : st1.lastUpdateCheck with
    | none => rfl
    | some lc =>
        rw [hl] at hinfo
        simp only at hinfo
        simp only [hl, hinfo]
  · intro e st1 evs hchk
    have hnd := downloadStart_not_check env st st.currentChannel
    rw [hchk] at hnd
    refine ⟨?_, hnd⟩
    unfold downloadUpdate
    rw [h]
    simp only [if_true, hchk]

/-! ### Concrete inputs for witnesses and counterexamples -/

def relPr7 : Release := ⟨"pr-7", some "Seven", true, "sha7", some "2024-02-02", some "b"⟩

def envBase : Env :=
  { now := 1000
    nowISO := "2024-01-01T00:00:00Z"
    appVersion := "1.0.0"
    latestRelease := .error ⟨404, "Not Found"⟩
    releasesList := .ok [relPr7]
    releaseByTag := fun t => if t = "pr-7" then .ok relPr7 else .error "missing"
    engineCheck := .ok (some ⟨"pr-7", "2024-02-02", "Seven", "b"⟩)
    rateLimit := .ok ⟨60, 0, 2000⟩
    downloadResult := .ok () }

def stEmpty : UState := ⟨"latest", none, none⟩

def envNoUpd : Env := { envBase with engineCheck := .ok none }

def envDown : Env := { envBase with engineCheck := .error "net down" }

/-- Witness for C1: fresh state on the latest channel and an engine that
reports no update; the download call re-checks, records no updateInfo,
fails with the no-update-available error and starts no download. -/
theorem downloadUpdate_requires_current_check_witness :
    needsRecheck stEmpty = true ∧
    downloadUpdate envNoUpd stEmpty =
      (.error .noUpdateAvailable, ⟨"latest", none, some ⟨"latest", none⟩⟩,
       [Ev.engineCheck]) ∧
    Ev.downloadStart ∉ [Ev.engineCheck] := by
  have h := (downloadUpdate_requires_current_check envNoUpd stEmpty (by decide)).1
    none ⟨"latest", none, some ⟨"latest", none⟩⟩ [Ev.engineCheck] (by decide) (by decide)
  exact ⟨by decide, h.1, h.2⟩

/-- Witness for C10: a failing engine check on the latest channel leaves
the current channel set and the recorded check cleared. -/
theorem checkForUpdates_failure_state_witness :
    checkForUpdates envDown stEmpty "latest" =
      (.error (.engineCheckFailed "net down"), ⟨"latest", none, none⟩, [Ev.engineCheck]) ∧
    (getCurrentChannel (⟨"latest", none, none⟩ : UState) = "latest" ∧
     (⟨"latest", none, none⟩ : UState).lastUpdateCheck = none ∧
     needsRecheck (⟨"latest", none, none⟩ : UState) = true) := by
  refine ⟨by decide, ?_⟩
  exact checkForUpdates_failure_state envDown stEmpty "latest"
    (.engineCheckFailed "net down") ⟨"latest", none, none⟩ [Ev.engineCheck] (by decide)

/-- C6 counterexample: a successful switchChannel through the IPC handler
leaves the Channel Store untouched, so after a restart the persisted
channel is still the default, not the channel just switched to. -/
theorem switchChannel_no_persist_counterexample :
    (switchChannelIPC envBase stEmpty ⟨none, none⟩ "pr-7").1 = .ok true ∧
    (switchChannelIPC envBase stEmpty ⟨none, none⟩ "pr-7").2.2.1 =
      (⟨none, none⟩ : StoreState) ∧
    (getChannel (restart (switchChannelIPC envBase stEmpty ⟨none, none⟩ "pr-7").2.2.1)).1 =
      DEFAULT_CHANNEL ∧
    DEFAULT_CHANNEL ≠ (⟨.tag, some "pr-7"⟩ : ReleaseChannel) := by
  refine ⟨by decide, by decide, by decide, by decide⟩

/-- C6 amended: switchChannel(channel) updates only the in-memory current
channel of the session (it does not persist through the Channel Store,
whose state is returned unchanged), then runs checkForUpdates(channel),
returns whether an update is available for the new channel, and does not
itself start a download. -/
theorem switchChannel_amended (env : Env) (u : UState) (s : StoreState) (c : String) :
    switchChannelIPC env u s c =
      ((checkForUpdates env { u with currentChannel := c } c).1.map Option.isSome,
       (checkForUpdates env { u with currentChannel := c } c).2.1,
       s,
       (checkForUpdates env { u with currentChannel := c } c).2.2) ∧
    Ev.downloadStart ∉ (switchChannelIPC env u s c).2.2.2 := by
  constructor
  · unfold switchChannelIPC switchChannel
    rcases hc : checkForUpdates env { u with currentChannel := c } c with ⟨r, st1, evs⟩
    cases r <;> simp [Except.map]
  · unfold switchChannelIPC switchChannel
    have hn := downloadStart_not_check env { u with currentChannel := c } c
    rcases hc : checkForUpdates env { u with currentChannel := c } c with ⟨r, st1, evs⟩
    rw [hc] at hn
    cases r <;> simpa using hn

/-! ### Cache behaviour of getAvailableBranches -/

theorem discoverLatest_cache (env : Env) (st : UState) :
    (discoverLatest env st).2.branchesCache = st.branchesCache := by
  unfold discoverLatest
  cases env.latestRelease with
  | ok lr =>
      simp only
      split <;> rfl
  | error e => rfl

theorem gab_cache_hit (env : Env) (st : UState) (c : Cache)
    (hc : st.branchesCache = some c)
    (hfresh : env.now - c.timestamp < CACHE_DURATION_MS) :
    getAvailableBranches env st false = (.ok c.data, st, []) := by
  unfold getAvailableBranches
  rw [hc]
  simp [hfresh]

theorem catchBranches_ok (env : Env) (st : UState) (e : ApiError) (evs : List Ev)
    (d : List BranchInfo) (st1 : UState) (evs1 : List Ev)
    (h : catchBranches env st e evs = (.ok d, st1, evs1)) :
    ∃ c, st.branchesCache = some c ∧ d = c.data := by
  unfold catchBranches at h
  split at h
  · cases hc : st.branchesCache with
    | none => rw [hc] at h; simp at h
    | some c =>
        rw [hc] at h
        simp only at h
        injection h with h1 h2
        injection h1 with h1
        exact ⟨c, rfl, h1.symm⟩
  · cases hc : st.branchesCache with
    | none => rw [hc] at h; simp at h
    | some c =>
        rw [hc] at h
        simp only at h
        injection h with h1 h2
        injection h1 with h1
        exact ⟨c, rfl, h1.symm⟩

theorem fetch_from_empty (env : Env) (st : UState) (d : List BranchInfo)
    (st1 : UState) (evs : List Ev)
    (h0 : st.branchesCache = none)
    (h1 : getAvailableBranches env st false = (.ok d, st1, evs)) :
    st1.branchesCache = some ⟨d, env.now⟩ ∧ evs = [Ev.fetchLatest, Ev.fetchList] := by
  unfold getAvailableBranches at h1
  rw [h0] at h1
  unfold fetchBranches at h1
  simp only at h1
  cases hrl : env.releasesList with
  | ok rels =>
      rw [hrl] at h1
      simp only at h1
      injection h1 with ha hb
      injection hb with hb hcv
      injection ha with ha
      subst hb
      subst ha
      exact ⟨by simp, hcv.symm⟩
  | error e =>
      rw [hrl] at h1
      simp only at h1
      have hnone : (discoverLatest env st).2.branchesCache = none := by
        rw [discoverLatest_cache]
        exact h0
      obtain ⟨c, hc, hd⟩ := catchBranches_ok env _ e _ d st1 evs h1
      rw [hnone] at hc
      exact absurd hc (by simp)

theorem runGets_all_hits (envs : List Env) (st : UState) (c : Cache)
    (hc : st.branchesCache = some c)
    (h : ∀ e ∈ envs, e.now - c.timestamp < CACHE_DURATION_MS) :
    runGets envs st = (envs.map (fun _ => .ok c.data), st, []) := by
  induction envs with
  | nil => rfl
  | cons e es ih =>
      have h1 := gab_cache_hit e st c hc (h e (by simp))
      unfold runGets
      rw [h1]
      simp only
      rw [ih (fun x hx => h x (by simp [hx]))]
      simp

/-- C4: after one successful registry fetch from an empty cache, every
subsequent call with forceRefresh false whose clock is inside the TTL
window performs no external action, returns exactly the fetched list, and
leaves the state unchanged; over the whole sequence exactly one registry
listing fetch occurs. -/
theorem cache_ttl_single_fetch (env0 : Env) (envs : List Env) (st0 st1 : UState)
    (d : List BranchInfo) (evs0 : List Ev)
    (h0 : st0.branchesCache = none)
    (h1 : getAvailableBranches env0 st0 false = (.ok d, st1, evs0))
    (h2 : ∀ e ∈ envs, e.now - env0.now < CACHE_DURATION_MS) :
    runGets envs st1 = (envs.map (fun _ => .ok d), st1, []) ∧
    countFetches (evs0 ++ (runGets envs st1).2.2) = 1 := by
  obtain ⟨hcache, hevs⟩ := fetch_from_empty env0 st0 d st1 evs0 h0 h1
  have hall := runGets_all_hits envs st1 ⟨d, env0.now⟩ hcache (fun e he => h2 e he)
  refine ⟨hall, ?_⟩
  rw [hall, hevs]
  show countFetches ([Ev.fetchLatest, Ev.fetchList] ++ []) = 1
  decide

def dPr7 : List BranchInfo := [⟨"pr-7", "PR #7: Seven", "sha7", .pr, some 7, some "pr-7"⟩]

def stCached : UState := ⟨"latest", some ⟨dPr7, 1000⟩, none⟩

def envT2 : Env := { envBase with now := 2000 }

def envT3 : Env := { envBase with now := 200000 }

/-- Witness for C4 at a concrete input: one fetch at time 1000, two later
calls inside the five-minute window. -/
theorem cache_ttl_single_fetch_witness :
    runGets [envT2, envT3] stCached = ([.ok dPr7, .ok dPr7], stCached, []) ∧
    countFetches ([Ev.fetchLatest, Ev.fetchList] ++ (runGets [envT2, envT3] stCached).2.2) = 1 := by
  have h := cache_ttl_single_fetch envBase [envT2, envT3] stEmpty stCached dPr7
    [Ev.fetchLatest, Ev.fetchList] (by decide) (by decide)
    (by intro e he; fin_cases he <;> decide)
  exact h

/-! ### Rate-limit behaviour (claim C2) -/

/-- Guard value deciding that a call misses the branches cache (negation
of the serve-from-cache condition of lines 79-85). -/
def cacheMissB (env : Env) (st : UState) (f : Bool) : Bool :=
  match st.branchesCache with
  | some c => !(!f && decide (env.now - c.timestamp < CACHE_DURATION_MS))
  | none => true

theorem gab_miss (env : Env) (st : UState) (f : Bool)
    (hm : cacheMissB env st f = true) :
    getAvailableBranches env st f = fetchBranches env st := by
  unfold cacheMissB at hm
  unfold getAvailableBranches
  cases hc : st.branchesCache with
  | none => rfl
  | some c =>
      rw [hc] at hm
      simp only [Bool.not_eq_true'] at hm
      simp [hm]

/-- Guard value deciding that a call misses the handlers releases cache
(negation of the serve-from-cache condition of lines 123-129). -/
def rcMissB (env : HEnv) (hs : HState) (fr : Bool) : Bool :=
  match hs.releasesCache with
  | some c => !(!fr && decide (env.now - c.fetchedAt < RELEASES_CACHE_TTL))
  | none => true

theorem hlr_miss (env : HEnv) (hs : HState) (fr : Bool)
    (hm : rcMissB env hs fr = true) :
    hListReleases env hs fr = hFetchReleases env hs := by
  unfold rcMissB at hm
  unfold hListReleases
  cases hc : hs.releasesCache with
  | none => rfl
  | some c =>
      rw [hc] at hm
      simp only [Bool.not_eq_true'] at hm
      simp [hm]

def envRL : Env :=
  { envBase with
    now := 400000
    releasesList := .error ⟨403, "API rate limit exceeded for 1.2.3.4"⟩ }

def stC : UState := ⟨"latest", some ⟨dPr7, 0⟩, none⟩

def ghRelA : GhRelease := ⟨11, "pr-7", "Seven", true, "2024-02-02", "u"⟩

def engine0 : Engine := ⟨none, false, false, false, .unset⟩

def henvRL : HEnv :=
  { isPackaged := true
    channel := ⟨.latest, none⟩
    currentVersion := "1.0.0"
    listResponse := .resp 403 "Forbidden" [] "API rate limit exceeded for 1.2.3.4" none
    now := 400000
    engineCheckResult := .ok none
    token := none }

def hsRL : HState := ⟨some ⟨[ghRelA], 0, some "W"⟩, engine0⟩

/-- C2 counterexample: the handlers listReleases receives a
rate-limit-classified failure (403 response whose body matches the
pattern) while a cache entry exists, yet it returns an empty list with
the rate-limit error message instead of the cached entry list as a
non-error result. -/
theorem rate_limit_cache_counterexample :
    hsRL.releasesCache = some ⟨[ghRelA], 0, some "W"⟩ ∧
    hListReleases henvRL hsRL false = ({ releases := [], error := some rateLimitMsg }, hsRL) ∧
    (hListReleases henvRL hsRL false).1.releases ≠ [ghRelA] ∧
    (hListReleases henvRL hsRL false).1.error ≠ none := by
  refine ⟨by decide, by decide, by decide, by decide⟩

/-- C2 amended: on a rate-limit-classified registry failure,
getAvailableBranches attempts the rate-limit introspection query, but the
informative quota error it builds is swallowed by its own catch, so
regardless of the query outcome the call returns the cached list when a
cache entry exists (of any age) and otherwise fails with a plain
rate-limit error carrying no quota details. The handlers listReleases
instead returns the rate-limit message with an empty list, regardless of
any cache entry. -/
theorem rate_limit_fallback_amended (env : Env) (st : UState) (e : ApiError) (f : Bool)
    (hm : cacheMissB env st f = true)
    (hrl : env.releasesList = .error e) (hcls : rlClassified e = true) :
    (∀ c, st.branchesCache = some c →
        (getAvailableBranches env st f).1 = .ok c.data) ∧
    (st.branchesCache = none →
        (getAvailableBranches env st f).1 = .error .rateLimitedNoInfo) ∧
    (∀ (henv : HEnv) (hs : HState) (fr : Bool) stT body bodyT etg,
        rcMissB henv hs fr = true →
        henv.listResponse = .resp 403 stT body bodyT etg →
        strContainsCI bodyT "rate limit" = true →
        hListReleases henv hs fr = ({ releases := [], error := some rateLimitMsg }, hs)) := by
  refine ⟨?_, ?_, ?_⟩
  · intro c hc
    rw [gab_miss env st f hm]
    unfold fetchBranches
    rw [hrl]
    simp only
    unfold catchBranches
    rw [hcls]
    simp only [if_true]
    simp only [discoverLatest_cache, hc]
  · intro hc
    rw [gab_miss env st f hm]
    unfold fetchBranches
    rw [hrl]
    simp only
    unfold catchBranches
    rw [hcls]
    simp only [if_true]
    simp only [discoverLatest_cache, hc]
  · intro henv hs fr stT body bodyT etg hm2 hresp hbody
    rw [hlr_miss henv hs fr hm2]
    unfold hFetchReleases
    rw [hresp]
    simp only
    cases hc : hs.releasesCache with
    | none =>
        unfold hHandleResp
        simp [hbody]
    | some c =>
        simp only [if_neg (by decide : ¬(403 = 304))]
        unfold hHandleResp
        simp [hbody]

/-- Witness for the amended C2: a rate-limit-classified failure with a
stale cache entry present; the quota query succeeds in the environment,
and the call still returns the cached list with no error. -/
theorem rate_limit_fallback_amended_witness :
    (getAvailableBranches envRL stC false).1 = .ok dPr7 := by
  have h := (rate_limit_fallback_amended envRL stC
    ⟨403, "API rate limit exceeded for 1.2.3.4"⟩ false
    (by decide) (by decide) (by decide)).1
  exact h ⟨dPr7, 0⟩ (by decide)

/-! ### Not-modified handling (claim C7) -/

/-- C7: a 304-style not-modified response to a conditional fetch with an
existing cache entry updates only the fetchedAt recency of the entry; the
cached list and validation token are unchanged and the call returns the
previously cached list with no error. -/
theorem not_modified_refreshes_recency (env : HEnv) (hs : HState) (c : RCache)
    (fr : Bool) (stT : String) (body : List GhRelease) (bodyT : String)
    (etg : Option String)
    (hm : rcMissB env hs fr = true)
    (hc : hs.releasesCache = some c)
    (hresp : env.listResponse = .resp 304 stT body bodyT etg) :
    hListReleases env hs fr =
      ({ releases := c.releases, error := none },
       { hs with releasesCache := some { c with fetchedAt := env.now } }) := by
  rw [hlr_miss env hs fr hm]
  unfold hFetchReleases
  rw [hresp]
  simp only
  rw [hc]
  simp

def hs304 : HState := ⟨some ⟨[ghRelA], 0, some "W"⟩, engine0⟩

def henv304 : HEnv :=
  { isPackaged := true
    channel := ⟨.latest, none⟩
    currentVersion := "1.0.0"
    listResponse := .resp 304 "Not Modified" [] "" none
    now := 400000
    engineCheckResult := .ok none
    token := none }

/-- Witness for C7 at a concrete stale cache entry and a 304 response. -/
theorem not_modified_refreshes_recency_witness :
    hListReleases henv304 hs304 false =
      ({ releases := [ghRelA], error := none },
       { hs304 with releasesCache := some ⟨[ghRelA], 400000, some "W"⟩ }) := by
  have h := not_modified_refreshes_recency henv304 hs304 ⟨[ghRelA], 0, some "W"⟩
    false "Not Modified" [] "" none (by decide) (by decide) (by decide)
  exact h

/-! ### Channel Store persistence (claims C8, C9) -/

theorem mk_toList (s : String) : String.mk s.toList = s := rfl

theorem strOfBytes_strBytes (s : String) : strOfBytes (strBytes s) = s := by
  unfold strOfBytes strBytes
  rw [List.map_map]
  have hid : (Char.ofNat ∘ Char.toNat) = id := funext Char.ofNat_toNat
  rw [hid, List.map_id]
  exact mk_toList s

theorem roundtrip_decode (c : ReleaseChannel) :
    decodeChannel (decryptBytes (encryptBytes (encodeChannel c))) = some c := by
  have hbytes : ∀ bs : List Nat, decryptBytes (encryptBytes bs) = bs := by
    intro bs
    unfold decryptBytes encryptBytes
    rw [List.map_map]
    have hid : ((fun b => b - 7) ∘ fun b : Nat => b + 7) = id :=
      funext fun b => by
        show b + 7 - 7 = b
        omega
    rw [hid, List.map_id]
  rw [hbytes]
  have h1 : ∀ xs : List Nat, decodeChannel (1 :: xs) = some ⟨.latest, some (strOfBytes xs)⟩ :=
    fun xs => rfl
  have h3 : ∀ xs : List Nat, decodeChannel (3 :: xs) = some ⟨.tag, some (strOfBytes xs)⟩ :=
    fun xs => rfl
  obtain ⟨t, tag⟩ := c
  cases t <;> cases tag
  · rfl
  · simp [encodeChannel, h1, strOfBytes_strBytes]
  · rfl
  · simp [encodeChannel, h3, strOfBytes_strBytes]

/-- C8: for a well-formed channel value, setChannel followed by a process
restart (the store reconstructed from the persisted encrypted bytes) and
getChannel returns the identical channel value. -/
theorem setChannel_roundtrip (c : ReleaseChannel) (st : StoreState)
    (hwf : wfChannel c = true) :
    (getChannel (restart (setChannel c true st).2)).1 = c := by
  show (decodeChannel (decryptBytes (encryptBytes (encodeChannel c)))).getD
      DEFAULT_CHANNEL = c
  rw [roundtrip_decode]
  rfl

/-- Witness for C8 at a concrete tag channel. -/
theorem setChannel_roundtrip_witness :
    wfChannel ⟨.tag, some "pr-7"⟩ = true ∧
    (getChannel (restart (setChannel ⟨.tag, some "pr-7"⟩ true ⟨none, none⟩).2)).1 =
      (⟨.tag, some "pr-7"⟩ : ReleaseChannel) := by
  exact ⟨by decide, setChannel_roundtrip ⟨.tag, some "pr-7"⟩ ⟨none, none⟩ (by decide)⟩

def chTag9 : ReleaseChannel := ⟨.tag, some "pr-9"⟩

def stLatest : StoreState :=
  ⟨some DEFAULT_CHANNEL, some (encryptBytes (encodeChannel DEFAULT_CHANNEL))⟩

/-- C9 counterexample: before a failing set the store reports the default
latest channel; the persistence step of setChannel fails, yet a
subsequent getChannel returns the newly requested channel, not the value
observed before the failed set. -/
theorem cache_updated_on_failed_set_counterexample :
    (getChannel stLatest).1 = DEFAULT_CHANNEL ∧
    (setChannel chTag9 false stLatest).1 = .error "persist failed" ∧
    (getChannel (setChannel chTag9 false stLatest).2).1 = chTag9 ∧
    chTag9 ≠ DEFAULT_CHANNEL := by
  refine ⟨by decide, by decide, by decide, by decide⟩

/-- C9 amended: saveSettings assigns the in-process cache before the
persistence step, so after a failed persist the store keeps the newly
requested channel in its cache (a later getChannel returns the new value,
not the previous one) while the durable file is unchanged. -/
theorem saveSettings_cache_before_persist (c : ReleaseChannel) (st : StoreState) :
    setChannel c false st = (.error "persist failed", { st with cache := some c }) ∧
    (getChannel (setChannel c false st).2).1 = c ∧
    (setChannel c false st).2.file = st.file := by
  refine ⟨rfl, rfl, rfl⟩

/-! ### Tag classification (claim C3) -/

theorem toList_append (a b : String) : (a ++ b).toList = a.toList ++ b.toList :=
  String.data_append a b

theorem chPre_append (p s : List Char) : chPre p (p ++ s) = true := by
  induction p with
  | nil => rfl
  | cons a as ih => simp [chPre, ih]

theorem strStarts_append (p r : String) : strStarts (p ++ r) p = true := by
  unfold strStarts
  rw [toList_append]
  exact chPre_append p.toList r.toList

theorem splitDash_no_dash (cs : List Char) (h : '-' ∉ cs) : splitDash cs = [cs] := by
  induction cs with
  | nil => rfl
  | cons c rest ih =>
      have hc : ¬ c = '-' := fun he => h (by simp [he])
      have hr : '-' ∉ rest := fun hm => h (List.mem_cons_of_mem c hm)
      simp only [splitDash]
      rw [ih hr]
      simp [hc]

theorem splitDash_pr (ds : List Char) (h : '-' ∉ ds) :
    splitDash ('p' :: 'r' :: '-' :: ds) = [['p', 'r'], ds] := by
  simp [splitDash, splitDash_no_dash ds h]

theorem digits_no_dash (ds : List Char) (h : ∀ c ∈ ds, c.isDigit = true) :
    '-' ∉ ds := fun hm => absurd (h _ hm) (by decide)

theorem digit_not_space (c : Char) (h : c.isDigit = true) : isJsSpace c = false := by
  have h0 : c ≠ ' ' := fun he => absurd h (by rw [he]; decide)
  have h1 : c ≠ '\t' := fun he => absurd h (by rw [he]; decide)
  have h2 : c ≠ '\n' := fun he => absurd h (by rw [he]; decide)
  have h3 : c ≠ '\r' := fun he => absurd h (by rw [he]; decide)
  simp [isJsSpace, h0, h1, h2, h3]

theorem parseIntJS_digits (ds : List Char) (hne : ds ≠ [])
    (h : ∀ c ∈ ds, c.isDigit = true) :
    parseIntJS (String.mk ds) = some ((digitsVal ds : Nat) : Int) := by
  have htake : ds.takeWhile Char.isDigit = ds := List.takeWhile_eq_self_iff.mpr h
  have hparse : parseDigits ds = some (digitsVal ds) := by
    unfold parseDigits
    rw [htake]
    simp [hne]
  unfold parseIntJS
  have hlist : (String.mk ds).toList = ds := rfl
  rw [hlist]
  cases ds with
  | nil => exact absurd rfl hne
  | cons c rest =>
      have hcd := h c (by simp)
      have hdrop : (c :: rest).dropWhile isJsSpace = c :: rest := by
        rw [List.dropWhile_cons, digit_not_space c hcd]
        simp
      rw [hdrop]
      have hplus : c ≠ '+' := fun he => absurd hcd (by rw [he]; decide)
      have hminus : c ≠ '-' := fun he => absurd hcd (by rw [he]; decide)
      simp only
      split
      · next heq => exact absurd (List.head_eq_of_cons_eq heq.symm).symm hplus
      · next heq => exact absurd (List.head_eq_of_cons_eq heq.symm).symm hminus
      · rw [hparse]
        rfl

theorem prNumberOf_pr_digits (ds : String) (hne : ds.toList ≠ [])
    (h : ∀ c ∈ ds.toList, c.isDigit = true) :
    prNumberOf ("pr-" ++ ds) = some ((digitsVal ds.toList : Nat) : Int) := by
  unfold prNumberOf seg1
  have htl : ("pr-" ++ ds).toList = 'p' :: 'r' :: '-' :: ds.toList := by
    rw [toList_append]
    rfl
  rw [htl, splitDash_pr ds.toList (digits_no_dash _ h)]
  simp only [List.drop]
  exact parseIntJS_digits ds.toList hne h

theorem dropBranchPre_append (rest : String) :
    dropBranchPre ("branch-" ++ rest) = rest := by
  unfold dropBranchPre
  rw [toList_append]
  have h7 : ("branch-".toList).length = 7 := rfl
  rw [← h7, List.drop_left]
  exact mk_toList rest

/-- Character-level statement that a string is a decimal integer literal
(optional sign, then one or more digits, nothing else). -/
def isIntLiteral (s : String) : Bool :=
  match s.toList with
  | [] => false
  | c :: rest =>
      if c = '+' ∨ c = '-' then !rest.isEmpty && rest.all Char.isDigit
      else (c :: rest).all Char.isDigit

def pr1x : Release := ⟨"pr-1x", some "X", true, "s", none, none⟩

/-- C3 counterexample: the prerelease tag pr-1x has a suffix that is not
an integer, yet classification does not omit it: JS parseInt accepts the
leading digit and the release is listed as PR number 1. -/
theorem classify_claim_counterexample :
    isIntLiteral "1x" = false ∧
    pr1x.prerelease = true ∧
    pr1x.tag_name = "pr-" ++ "1x" ∧
    (classifyPrerelease pr1x).map BranchInfo.kind = some .pr ∧
    (classifyPrerelease pr1x).bind BranchInfo.prNumber = some 1 := by
  refine ⟨by decide, by decide, by decide, by decide, by decide⟩

/-- C3 amended: classification of (tag, isPrerelease) is pure and total;
a prerelease tag pr-<n> whose suffix is a decimal numeral n yields kind
pr with prNumber n; a prerelease pr- tag is omitted exactly when JS
parseInt of the segment between the first and second dash is NaN (no
leading digit after optional sign): whenever that parseInt yields a value
the release is included with exactly that value as prNumber, so a
non-numeral suffix with a leading digit, such as pr-1x, is still
included; a prerelease branch-<rest> tag yields kind branch with display
name Branch: <rest>; a non-prerelease descriptor obtained via get-latest
yields kind release. -/
theorem classify_amended :
    (∀ (r : Release) (ds : String), r.prerelease = true →
        r.tag_name = "pr-" ++ ds → ds.toList ≠ [] →
        (∀ c ∈ ds.toList, c.isDigit = true) →
        classifyPrerelease r = some
          { name := r.tag_name
            displayName := "PR #" ++ toString ((digitsVal ds.toList : Nat) : Int) ++
              ": " ++ jsOr r.name "Untitled"
            sha := r.target_commitish
            kind := .pr
            prNumber := some ((digitsVal ds.toList : Nat) : Int)
            releaseTag := some r.tag_name }) ∧
    (∀ r : Release, r.prerelease = true → strStarts r.tag_name "pr-" = true →
        prNumberOf r.tag_name = none → classifyPrerelease r = none) ∧
    (∀ (r : Release) (n : Int), r.prerelease = true →
        strStarts r.tag_name "pr-" = true → prNumberOf r.tag_name = some n →
        classifyPrerelease r = some
          { name := r.tag_name
            displayName := "PR #" ++ toString n ++ ": " ++ jsOr r.name "Untitled"
            sha := r.target_commitish
            kind := .pr
            prNumber := some n
            releaseTag := some r.tag_name }) ∧
    (∀ (r : Release) (rest : String), r.prerelease = true →
        r.tag_name = "branch-" ++ rest →
        classifyPrerelease r = some
          { name := r.tag_name
            displayName := "Branch: " ++ rest
            sha := r.target_commitish
            kind := .branch
            prNumber := none
            releaseTag := some r.tag_name }) ∧
    (∀ lr : Release, (mkLatestBranchInfo lr).kind = .release) := by
  refine ⟨?_, ?_, ?_, ?_, fun lr => rfl⟩
  · intro r ds hpre htag hne hdig
    unfold classifyPrerelease
    rw [hpre, htag, strStarts_append, prNumberOf_pr_digits ds hne hdig]
    simp
  · intro r hpre hstarts hnan
    unfold classifyPrerelease
    rw [hpre, hstarts, hnan]
    simp
  · intro r n hpre hstarts hn
    unfold classifyPrerelease
    rw [hpre, hstarts, hn]
    simp
  · intro r rest hpre htag
    have hnotpr : strStarts r.tag_name "pr-" = false := by
      rw [htag]
      unfold strStarts
      rw [toList_append]
      rfl
    unfold classifyPrerelease
    rw [hpre, hnotpr, htag, strStarts_append]
    simp [dropBranchPre_append, htag]

/-- Witness for the amended C3 at concrete tags pr-42, pr-abc, pr-1x,
branch-feature-x and a stable release. -/
theorem classify_amended_witness :
    classifyPrerelease ⟨"pr-42", some "T", true, "s", none, none⟩ = some
      ⟨"pr-42", "PR #42: T", "s", .pr, some 42, some "pr-42"⟩ ∧
    classifyPrerelease ⟨"pr-abc", some "T", true, "s", none, none⟩ = none ∧
    classifyPrerelease ⟨"pr-1x", some "X", true, "s", none, none⟩ = some
      ⟨"pr-1x", "PR #1: X", "s", .pr, some 1, some "pr-1x"⟩ ∧
    classifyPrerelease ⟨"branch-feature-x", some "T", true, "s", none, none⟩ = some
      ⟨"branch-feature-x", "Branch: feature-x", "s", .branch, none,
       some "branch-feature-x"⟩ ∧
    (mkLatestBranchInfo ⟨"v1.2.0", some "T", false, "s", none, none⟩).kind = .release := by
  obtain ⟨h1, h2, h3, h4, h5⟩ := classify_amended
  refine ⟨?_, ?_, ?_, ?_, h5 _⟩
  · have := h1 ⟨"pr-42", some "T", true, "s", none, none⟩ "42" rfl (by decide)
      (by decide) (by decide)
    simpa using this
  · exact h2 ⟨"pr-abc", some "T", true, "s", none, none⟩ rfl (by decide) (by decide)
  · have := h3 ⟨"pr-1x", some "X", true, "s", none, none⟩ 1 rfl (by decide) (by decide)
    simpa using this
  · have := h4 ⟨"branch-feature-x", some "T", true, "s", none, none⟩ "feature-x" rfl
      (by decide)
    simpa using this

/-! ### Engine downgrade policy (claim C5) -/

theorem truthyTag_some (o : Option String) (t : String) (h : truthyTag o = some t) :
    o = some t := by
  cases o with
  | none => simp [truthyTag] at h
  | some v =>
      by_cases hv : v = ""
      · rw [hv] at h
        simp [truthyTag] at h
      · simp [truthyTag, hv] at h
        rw [h]

/-- C5: whenever the handlers update check invokes the delivery engine for
a well-formed tag-pinned channel, the engine is configured at that moment
with downgrade allowed and its feed the generic URL of that exact tag
artifact set; for the latest channel every engine invocation happens with
downgrade disallowed. -/
theorem engine_check_downgrade_policy (env : HEnv) (hs : HState)
    (hwf : wfChannel env.channel = true) :
    ∀ eng ∈ (hCheckForUpdates env hs).2.2,
      (∀ t, env.channel.tag = some t → env.channel.type = .tag →
          eng.allowDowngrade = true ∧
          eng.feed = .generic (downloadUrlFor t) (extractChannelFromTag t)) ∧
      (env.channel.type = .latest → eng.allowDowngrade = false) := by
  intro eng hmem
  unfold hCheckForUpdates at hmem
  split at hmem
  · simp at hmem
  · split at hmem
    · next t htype httag =>
        have htag : env.channel.tag = some t := truthyTag_some _ _ httag
        rcases hl : hListReleases env hs true with ⟨resp, hs1⟩
        rw [hl] at hmem
        simp only at hmem
        cases herr : resp.error with
        | some e => rw [herr] at hmem; simp at hmem
        | none =>
            rw [herr] at hmem
            simp only at hmem
            cases hfind : resp.releases.find? (fun r => r.tag_name == t) with
            | none => rw [hfind] at hmem; simp at hmem
            | some tr =>
                rw [hfind] at hmem
                simp only at hmem
                split at hmem
                · simp at hmem
                · have heng :
                      eng = { hs1.engine with
                              feed := .generic (downloadUrlFor t)
                                (extractChannelFromTag t),
                              allowPrerelease := true,
                              allowDowngrade := true } := by
                    cases hec : env.engineCheckResult with
                    | ok r =>
                        rw [hec] at hmem
                        cases r <;> simpa using hmem
                    | error m => rw [hec] at hmem; simpa using hmem
                  constructor
                  · intro t2 ht2 _
                    rw [htag] at ht2
                    injection ht2 with ht2
                    subst ht2
                    rw [heng]
                    exact ⟨rfl, rfl⟩
                  · intro hlat
                    rw [hlat] at htype
                    exact absurd htype (by simp)
    · next hnomatch =>
        have heng :
            eng = { configureAutoUpdater env hs.engine env.channel with
                    allowDowngrade := false } := by
          cases hec : env.engineCheckResult with
          | ok r =>
              rw [hec] at hmem
              cases r <;> simpa using hmem
          | error m => rw [hec] at hmem; simpa using hmem
        constructor
        · intro t ht htype
          have htne : t ≠ "" := by
            unfold wfChannel at hwf
            rw [htype, ht] at hwf
            simpa using hwf
          have hcontra : False := by
            apply hnomatch t htype
            rw [ht]
            unfold truthyTag
            simp [htne]
          exact hcontra.elim
        · intro _
          rw [heng]

def henvTag : HEnv :=
  { isPackaged := true
    channel := ⟨.tag, some "pr-7"⟩
    currentVersion := "1.0.0"
    listResponse := .resp 200 "OK" [ghRelA] "" (some "E")
    now := 1000
    engineCheckResult := .ok (some ⟨"pr-7", "d", "n", "b"⟩)
    token := none }

def hs0 : HState := ⟨none, engine0⟩

def engTagCfg : Engine := ⟨none, true, true, false, .generic (downloadUrlFor "pr-7") "beta"⟩

/-- Witness for C5 at a concrete packaged run on the pinned tag pr-7: the
single engine invocation happens with downgrade allowed and the feed at
the tag artifact set. -/
theorem engine_check_downgrade_policy_witness :
    wfChannel henvTag.channel = true ∧
    (hCheckForUpdates henvTag hs0).2.2 = [engTagCfg] ∧
    engTagCfg.allowDowngrade = true ∧
    engTagCfg.feed = .generic (downloadUrlFor "pr-7") (extractChannelFromTag "pr-7") := by
  refine ⟨by decide, by decide, ?_, ?_⟩
  · exact ((engine_check_downgrade_policy henvTag hs0 (by decide)) engTagCfg
      (by decide)).1 "pr-7" (by decide) (by decide) |>.1
  · exact ((engine_check_downgrade_policy henvTag hs0 (by decide)) engTagCfg
      (by decide)).1 "pr-7" (by decide) (by decide) |>.2

end YakShaver
